import Mathlib

/-!
Verification of bookforge's PDF analyzer and redaction pipeline.

Shallow embedding of:
  * src/python/pdf_analyzer.py  (PDFAnalyzer: analyze, _extract_page_blocks,
    _generate_categories, _classify_block, export_text, find_similar)
  * src/electron/pdf-redact.py  (region redaction and page deletion)

Python floats are modelled as rationals (ℚ); Python dicts as
insertion-ordered association lists; Python's stable `sorted` as insertion
sort (any two stable sorts by the same total preorder key agree on output).
-/

set_option maxHeartbeats 1600000

namespace BookForge

/-- Python `body_size or 10.0` on the optional baseline: both `None` and
`0.0` are falsy in Python, so either is replaced by `10.0`. -/
def pyOr10 (x : Option ℚ) : ℚ :=
  match x with
  | none => 10
  | some v => if v = 0 then 10 else v

/-- Python `int()` truncation toward zero on a rational. -/
def truncQ (q : ℚ) : Int := if 0 ≤ q then ⌊q⌋ else ⌈q⌉

/-- A text or image block extracted from a PDF page
(dataclass `TextBlock` in pdf_analyzer.py). -/
structure TextBlock where
  id : String
  page : Nat
  x : ℚ
  y : ℚ
  width : ℚ
  height : ℚ
  text : String
  font_size : ℚ
  font_name : String
  char_count : Nat
  region : String
  category_id : String
  is_bold : Bool := false
  is_italic : Bool := false
  is_superscript : Bool := false
  is_image : Bool := false
  line_count : Nat := 1
deriving Repr, DecidableEq

/-- An auto-generated category (dataclass `Category` in pdf_analyzer.py). -/
structure Category where
  id : String
  name : String
  description : String
  color : String
  block_count : Nat
  char_count : Nat
  font_size : ℚ
  region : String
  sample_text : String
  enabled : Bool := true
deriving Repr, DecidableEq

/-- An axis-aligned rectangle (pymupdf Rect; screen coordinates, y down). -/
structure Rect where
  x0 : ℚ
  y0 : ℚ
  x1 : ℚ
  y1 : ℚ
deriving Repr, DecidableEq

/-- Region decision for a text block, translated from the if/elif chain in
`_extract_page_blocks` (pdf_analyzer.py lines 281-291); `y` is the block's
top coordinate, `text_len = len(combined_text)`. -/
def computeRegion (y page_height : ℚ) (text_len line_count : Nat) : String :=
  let y_pct := y / page_height
  if y_pct < 5/100 ∧ text_len < 150 ∧ line_count ≤ 3 then "header"
  else if y_pct < 8/100 ∧ text_len < 80 ∧ line_count ≤ 2 then "header"
  else if y_pct > 92/100 ∨ (y_pct > 88/100 ∧ text_len < 50) then "footer"
  else if y_pct > 70/100 then "lower"
  else "body"

/-- `_classify_block` after the `body_size = body_size or 10.0` line
(pdf_analyzer.py lines 414-457).  The Python nested
`if block.is_bold: if ... heading elif ... subheading` falls through to the
italic check when neither branch fires, which linearises to the two
bold-guarded conditions below. -/
def classifyBlockCore (block : TextBlock) (body_size : ℚ) : String :=
  if block.is_image then "image"
  else if block.is_superscript then "footnote_ref"
  else if block.font_size < body_size * (7/10) ∧ block.char_count < 5 then "footnote_ref"
  else if block.region = "header" then "header"
  else if block.region = "footer" then "footer"
  else if block.region = "lower" ∧ block.font_size < body_size * (95/100) then "footnote"
  else if block.font_size < body_size * (85/100) ∧ block.region ≠ "lower" then "caption"
  else if block.font_size > body_size * (14/10) then "title"
  else if block.is_bold ∧ block.font_size > body_size * (11/10) then "heading"
  else if block.is_bold ∧ block.line_count ≤ 2 ∧ block.char_count < 200 then "subheading"
  else if block.is_italic ∧ block.line_count > 2 then "quote"
  else "body"

/-- `_classify_block` as called by `_generate_categories`: the optional
baseline goes through Python's `or 10.0` first. -/
def classifyBlock (block : TextBlock) (body_size : Option ℚ) : String :=
  classifyBlockCore block (pyOr10 body_size)

/-- The semantic types the classifier can produce. -/
def categoryTypes : List String :=
  ["image", "footnote_ref", "header", "footer", "footnote", "caption",
   "title", "heading", "subheading", "quote", "body"]

/-- The per-block classification rules exactly as the specification lists
them, one ordered decision list with first match winning. -/
def classifySpec (block : TextBlock) (baseline : ℚ) : String :=
  if block.is_image then "image"
  else if block.is_superscript then "footnote_ref"
  else if block.font_size < 7/10 * baseline ∧ block.char_count < 5 then "footnote_ref"
  else if block.region = "header" then "header"
  else if block.region = "footer" then "footer"
  else if block.region = "lower" ∧ block.font_size < 95/100 * baseline then "footnote"
  else if block.font_size < 85/100 * baseline ∧ block.region ≠ "lower" then "caption"
  else if block.font_size > 14/10 * baseline then "title"
  else if block.is_bold ∧ block.font_size > 11/10 * baseline then "heading"
  else if block.is_bold ∧ block.line_count ≤ 2 ∧ block.char_count < 200 then "subheading"
  else if block.is_italic ∧ block.line_count > 2 then "quote"
  else "body"

/-- The region decision table exactly as the specification states it:
the two header disjuncts merged, then footer, lower, body. -/
def regionSpec (y page_height : ℚ) (text_len line_count : Nat) : String :=
  let y_pct := y / page_height
  if (y_pct < 5/100 ∧ text_len < 150 ∧ line_count ≤ 3) ∨
     (y_pct < 8/100 ∧ text_len < 80 ∧ line_count ≤ 2) then "header"
  else if y_pct > 92/100 ∨ (y_pct > 88/100 ∧ text_len < 50) then "footer"
  else if y_pct > 70/100 then "lower"
  else "body"

/-- First loop of `_generate_categories`: accumulate character counts per
font size (a Python defaultdict keeps keys in first-insertion order). -/
def addChars (acc : List (ℚ × Nat)) (size : ℚ) (n : Nat) : List (ℚ × Nat) :=
  match acc with
  | [] => [(size, n)]
  | p :: rest => if p.1 = size then (p.1, p.2 + n) :: rest else p :: addChars rest size n

/-- `size_chars`: character counts per font size over body-region non-bold
blocks (pdf_analyzer.py lines 321-324). -/
def sizeChars (blocks : List TextBlock) : List (ℚ × Nat) :=
  blocks.foldl
    (fun acc b =>
      if b.region = "body" ∧ b.is_bold = false then addChars acc b.font_size b.char_count
      else acc)
    []

/-- Python `max(items, key=lambda x: x[1])`: the first maximal element in
iteration order (later elements replace only on a strictly greater key). -/
def maxBySnd (l : List (ℚ × Nat)) : Option (ℚ × Nat) :=
  l.foldl
    (fun acc p =>
      match acc with
      | none => some p
      | some q => if q.2 < p.2 then some p else some q)
    none

/-- `body_size` as `_generate_categories` computes it: `None` when no
body-region non-bold blocks exist. -/
def bodySizeOpt (blocks : List TextBlock) : Option ℚ :=
  (maxBySnd (sizeChars blocks)).map Prod.fst

/-- The baseline the classifier actually compares against, after the
`body_size = body_size or 10.0` line. -/
def effectiveBodySize (blocks : List TextBlock) : ℚ :=
  pyOr10 (bodySizeOpt blocks)

/-- The baseline as the specification words it: the font size with the
highest total character count among body-region non-bold blocks (same
first-maximum tie-break), defaulting to 10.0 only when no such blocks
exist. -/
def baselineSpec (blocks : List TextBlock) : ℚ :=
  match maxBySnd (sizeChars blocks) with
  | none => 10
  | some p => p.1

/-- Python `round()` (round half to even), used in the image dedup keys
and the `{x:.0f}` id formatting. -/
def pyRound (q : ℚ) : Int :=
  if q - ⌊q⌋ < 1/2 then ⌊q⌋
  else if 1/2 < q - ⌊q⌋ then ⌊q⌋ + 1
  else if Even ⌊q⌋ then ⌊q⌋ else ⌊q⌋ + 1

/-- The id string of an image block; the md5 digest of
`f"{page_num}:img:{x:.0f},{y:.0f}"` is abstracted to its (injective)
preimage tag, since no claim inspects id contents. -/
def imgBlockId (page_num : Nat) (x y : ℚ) : String :=
  toString page_num ++ ":img:" ++ toString (pyRound x) ++ "," ++ toString (pyRound y)

/-- The TextBlock built for an image: both image creation sites of
`_extract_page_blocks` (pdf_analyzer.py lines 163-178 and 206-221) fill
exactly these fields; they differ only in the id string. -/
def mkImageBlock (idStr : String) (page_num : Nat) (x y x2 y2 : ℚ) : TextBlock :=
  { id := idStr, page := page_num, x := x, y := y,
    width := x2 - x, height := y2 - y,
    text := "[Image " ++ toString (truncQ (x2 - x)) ++ "x" ++ toString (truncQ (y2 - y)) ++ "]",
    font_size := 0, font_name := "image", char_count := 0,
    region := "body", category_id := "",
    is_image := true, line_count := 0 }

/-- First image-extraction loop of `_extract_page_blocks`: every image
bounding box at least 20 wide and 20 tall whose rounded rectangle was not
already seen becomes an image TextBlock; `seen` is the dedup key set. -/
def extractImageBlocksAux (page_num : Nat) :
    List Rect → List (Int × Int × Int × Int) → List TextBlock
  | [], _ => []
  | bb :: rest, seen =>
    if bb.x1 - bb.x0 < 20 ∨ bb.y1 - bb.y0 < 20 then
      extractImageBlocksAux page_num rest seen
    else
      let key := (pyRound bb.x0, pyRound bb.y0, pyRound bb.x1, pyRound bb.y1)
      if key ∈ seen then extractImageBlocksAux page_num rest seen
      else
        mkImageBlock (imgBlockId page_num bb.x0 bb.y0) page_num bb.x0 bb.y0 bb.x1 bb.y1 ::
          extractImageBlocksAux page_num rest (key :: seen)

/-- Image extraction for one page from the reported image bounding boxes. -/
def extractImageBlocks (page_num : Nat) (bboxes : List Rect) : List TextBlock :=
  extractImageBlocksAux page_num bboxes []

/-- A concrete image block near the bottom of a 792-unit-tall page. -/
def imgBlock : TextBlock :=
  mkImageBlock (imgBlockId 0 50 750) 0 50 750 150 790

/-- A concrete ordinary body text block. -/
def bodyTextBlock : TextBlock :=
  { id := "t1", page := 0, x := 100, y := 300, width := 200, height := 12,
    text := "Hello world body text.", font_size := 10, font_name := "Times",
    char_count := 22, region := "body", category_id := "" }

/-- A bold, superscript block with tiny font size (the in-particular case
of the classification-priority claim). -/
def tinyBoldSuper : TextBlock :=
  { id := "b1", page := 0, x := 100, y := 200, width := 5, height := 5,
    text := "3", font_size := 4, font_name := "Times-Bold",
    char_count := 1, region := "body", category_id := "",
    is_bold := true, is_superscript := true }

/-- CATEGORY_TYPE_COLORS: the fixed semantic palette. -/
def categoryColor : String → Option String
  | "body" => some "#4CAF50"
  | "footnote" => some "#2196F3"
  | "footnote_ref" => some "#E91E63"
  | "heading" => some "#FF9800"
  | "subheading" => some "#9C27B0"
  | "title" => some "#F44336"
  | "caption" => some "#00BCD4"
  | "quote" => some "#FFEB3B"
  | "header" => some "#795548"
  | "footer" => some "#607D8B"
  | "image" => some "#9E9E9E"
  | _ => none

/-- FALLBACK_COLORS: the cyclic palette for unknown types. -/
def FALLBACK_COLORS : List String :=
  ["#E91E63", "#3F51B5", "#009688", "#8BC34A", "#FF5722",
   "#673AB7", "#00E676", "#FF4081", "#536DFE"]

/-- `hashlib.md5(cat_type).hexdigest()[:8]`: the digest prefixes for the
eleven types the classifier can produce are precomputed; any other type
(unreachable through the classifier) gets a distinct tagged id. -/
def catId : String → String
  | "body" => "841a2d68"
  | "footnote" => "7f3c72c0"
  | "footnote_ref" => "f2a27516"
  | "heading" => "f74f539f"
  | "subheading" => "79a53515"
  | "title" => "d5d3db17"
  | "caption" => "7a7dc1cd"
  | "quote" => "7a674c32"
  | "header" => "099fb995"
  | "footer" => "251d1646"
  | "image" => "78805a22"
  | t => "md5:" ++ t

/-- Category name and description per type (the if/elif chain of
`_generate_categories`); `n` is the group's block count, used in the
f-string descriptions. -/
def catNameDesc (cat_type : String) (n : Nat) : String × String :=
  if cat_type = "body" then
    ("Body Text", "Main content (" ++ toString n ++ " blocks)")
  else if cat_type = "footnote" then
    ("Footnotes", "Footnotes and references (" ++ toString n ++ " blocks)")
  else if cat_type = "footnote_ref" then
    ("Footnote Numbers", "Superscript reference numbers (" ++ toString n ++ " blocks)")
  else if cat_type = "heading" then ("Section Headings", "Bold section titles")
  else if cat_type = "subheading" then ("Subheadings", "Bold subsection titles")
  else if cat_type = "title" then ("Titles", "Large titles or chapter headings")
  else if cat_type = "header" then ("Page Headers", "Running header text")
  else if cat_type = "footer" then ("Page Footers", "Page numbers or footer text")
  else if cat_type = "caption" then ("Captions", "Figure or table captions")
  else if cat_type = "quote" then ("Block Quotes", "Indented quotations")
  else if cat_type = "image" then
    ("Images", "Figures and images (" ++ toString n ++ " blocks)")
  else ("Other (" ++ cat_type ++ ")", "Other text style")

/-- Python `round(x, 1)` (half to even at one decimal; binary-float
artifacts are abstracted — no claim depends on this field). -/
def round1 (q : ℚ) : ℚ := (pyRound (q * 10) : ℚ) / 10

/-- The Category record built for one group in `_generate_categories`
(pdf_analyzer.py lines 342-405). -/
def mkCategory (cat_type : String) (blocks : List TextBlock) (color : String) : Category :=
  let n := blocks.length
  let nd := catNameDesc cat_type n
  let avg : ℚ := match blocks with
    | [] => 10
    | _ => (blocks.map (fun b => b.font_size)).sum / (n : ℚ)
  { id := catId cat_type,
    name := nd.1, description := nd.2, color := color,
    block_count := n,
    char_count := (blocks.map (fun b => b.char_count)).sum,
    font_size := round1 avg,
    region := match blocks with | [] => "body" | b :: _ => b.region,
    sample_text := match blocks with | [] => "" | b :: _ => b.text.take 100,
    enabled := true }

/-- Keys of a Python dict built by appending: first-occurrence order,
duplicates dropped. -/
def dedupKeepFirstAux (seen : List String) : List String → List String
  | [] => []
  | t :: rest =>
    if t ∈ seen then dedupKeepFirstAux seen rest
    else t :: dedupKeepFirstAux (t :: seen) rest

/-- First-occurrence deduplication (Python dict key order). -/
def dedupKeepFirst (l : List String) : List String := dedupKeepFirstAux [] l

/-- The group keys of `_generate_categories`' `groups` defaultdict, in
first-occurrence order. -/
def groupKeys (blocks : List TextBlock) (bs : Option ℚ) : List String :=
  dedupKeepFirst (blocks.map (fun b => classifyBlock b bs))

/-- The member list of one group: the blocks classified to type `t`, in
document order. -/
def groupOf (blocks : List TextBlock) (bs : Option ℚ) (t : String) : List TextBlock :=
  blocks.filter (fun b => classifyBlock b bs = t)

/-- Total character count of one group. -/
def groupChars (blocks : List TextBlock) (bs : Option ℚ) (t : String) : Nat :=
  ((groupOf blocks bs t).map (fun b => b.char_count)).sum

/-- `sorted(groups.items(), key=lambda x: -sum(...))`: the group keys in
stable descending order of total character count (Python's stable sort
modelled by insertion sort). -/
def sortedKeys (blocks : List TextBlock) (bs : Option ℚ) : List String :=
  List.insertionSort (fun t1 t2 => groupChars blocks bs t2 ≤ groupChars blocks bs t1)
    (groupKeys blocks bs)

/-- The `(cat_id, Category)` pairs one categorization pass writes, in loop
order; `fidx` is the running fallback-color index (`fallback_idx`), which
advances only for types outside the semantic palette. -/
def catPairsAux (blocks : List TextBlock) (bs : Option ℚ) :
    Nat → List String → List (String × Category)
  | _, [] => []
  | fidx, t :: rest =>
    match categoryColor t with
    | some c =>
        (catId t, mkCategory t (groupOf blocks bs t) c) :: catPairsAux blocks bs fidx rest
    | none =>
        (catId t, mkCategory t (groupOf blocks bs t)
            (FALLBACK_COLORS.getD (fidx % FALLBACK_COLORS.length) "")) ::
          catPairsAux blocks bs (fidx + 1) rest

/-- All category entries one pass over `blocks` produces. -/
def catPairs (blocks : List TextBlock) : List (String × Category) :=
  catPairsAux blocks (bodySizeOpt blocks) 0 (sortedKeys blocks (bodySizeOpt blocks))

/-- Python dict assignment `d[k] = v`: overwrite in place, else append. -/
def dictSet (d : List (String × Category)) (k : String) (v : Category) :
    List (String × Category) :=
  match d with
  | [] => [(k, v)]
  | p :: rest => if p.1 = k then (k, v) :: rest else p :: dictSet rest k v

/-- Python dict lookup. -/
def dictGet (d : List (String × Category)) (k : String) : Option Category :=
  match d with
  | [] => none
  | p :: rest => if p.1 = k then some p.2 else dictGet rest k

/-- Write a list of entries into a dict in order (last write wins). -/
def applyPairs (d : List (String × Category)) (ps : List (String × Category)) :
    List (String × Category) :=
  ps.foldl (fun d2 p => dictSet d2 p.1 p.2) d

/-- The value the last entry of `ps` assigns to key `k`, if any. -/
def lastVal : List (String × Category) → String → Option Category
  | [], _ => none
  | p :: rest, k =>
    match lastVal rest k with
    | some v => some v
    | none => if p.1 = k then some p.2 else none

/-- The category id `_generate_categories` back-fills into a block. -/
def assignCat (bs : Option ℚ) (b : TextBlock) : TextBlock :=
  { b with category_id := catId (classifyBlock b bs) }

/-- The analyzer's mutable session state: `self.blocks` and
`self.categories` (the document handle and page dimensions carry no claim
content). -/
structure AnalyzerState where
  blocks : List TextBlock
  categories : List (String × Category)
deriving Repr, DecidableEq

/-- A fresh `PDFAnalyzer()`. -/
def initState : AnalyzerState := { blocks := [], categories := [] }

/-- `_generate_categories`: group the current blocks by semantic type,
write one Category per type into the (never-cleared) categories dict, and
set every block's category id to its group's id. -/
def generateCategories (st : AnalyzerState) : AnalyzerState :=
  { blocks := st.blocks.map (assignCat (bodySizeOpt st.blocks)),
    categories := applyPairs st.categories (catPairs st.blocks) }

/-- `analyze`: `self.blocks` is reset and refilled from the new document
(modelled by the freshly extracted block list), `self.categories` is
carried over as-is, then `_generate_categories` runs. -/
def analyze (st : AnalyzerState) (extracted : List TextBlock) : AnalyzerState :=
  generateCategories { blocks := extracted, categories := st.categories }

/-- The export sort key `(page, y, x)`, compared lexicographically. -/
def blockKey (b : TextBlock) : Lex (Nat × Lex (ℚ × ℚ)) :=
  toLex (b.page, toLex (b.y, b.x))

/-- `sorted(self.blocks, key=lambda b: (b.page, b.y, b.x))`'s order. -/
def blockKeyLE (b1 b2 : TextBlock) : Prop := blockKey b1 ≤ blockKey b2

instance : DecidableRel blockKeyLE :=
  fun b1 b2 => inferInstanceAs (Decidable (blockKey b1 ≤ blockKey b2))

instance : IsTotal TextBlock blockKeyLE :=
  ⟨fun a b => le_total (blockKey a) (blockKey b)⟩

instance : IsTrans TextBlock blockKeyLE :=
  ⟨fun _ _ _ hab hbc => le_trans hab hbc⟩

/-- The blocks `export_text` emits: the stable `(page, y, x)` sort of all
blocks, restricted to the enabled categories (the loop's `continue`). -/
def exportedBlocks (st : AnalyzerState) (enabled : List String) : List TextBlock :=
  (List.insertionSort blockKeyLE st.blocks).filter (fun b => b.category_id ∈ enabled)

/-- The emission loop of `export_text`: `current_page` starts at −1; a
blank line is appended whenever the page changes and the previous page
marker is non-negative, then the block's text. -/
def exportLoop : List TextBlock → Int → List String
  | [], _ => []
  | b :: rest, current_page =>
    if (b.page : Int) = current_page then b.text :: exportLoop rest current_page
    else (if 0 ≤ current_page then [""] else []) ++ b.text :: exportLoop rest (b.page : Int)

/-- `export_text(enabled_categories)`: the joined text and its character
count. -/
def export_text (st : AnalyzerState) (enabled : List String) : String × Nat :=
  let text := String.intercalate "\n" (exportLoop (exportedBlocks st enabled) (-1))
  (text, text.length)

/-- The emitted lines as the specification words them: each block's text,
preceded by exactly one blank line when its page differs from the previous
emitted block's page, with no blank line before the first emitted block. -/
def exportSpecRest (prev : Nat) : List TextBlock → List String
  | [] => []
  | b :: rest =>
    (if b.page = prev then [b.text] else ["", b.text]) ++ exportSpecRest b.page rest

/-- Spec-side emission: first block bare, the rest via `exportSpecRest`. -/
def exportSpecLines : List TextBlock → List String
  | [] => []
  | b :: rest => b.text :: exportSpecRest b.page rest

/-- `find_similar(block_id)`: first block with the id (or an empty result),
then all ids sharing its category, in storage order. -/
def find_similar (st : AnalyzerState) (block_id : String) : List String × Nat :=
  match st.blocks.find? (fun b => b.id = block_id) with
  | none => ([], 0)
  | some target =>
    let similar := (st.blocks.filter
      (fun b => b.category_id = target.category_id)).map (fun b => b.id)
    (similar, similar.length)

/-- A redaction region from regions.json (pdf-redact.py). -/
structure RedactRegion where
  page : Nat
  x : ℚ
  y : ℚ
  width : ℚ
  height : ℚ
  text : String := ""
  isImage : Bool := false
deriving Repr, DecidableEq

/-- The requested rectangle of a region. -/
def regionRect (r : RedactRegion) : Rect :=
  { x0 := r.x, y0 := r.y, x1 := r.x + r.width, y1 := r.y + r.height }

/-- pymupdf `Rect.intersects`: the two rectangles share a non-empty
rectangle. -/
def intersects (a b : Rect) : Bool :=
  decide (max a.x0 b.x0 < min a.x1 b.x1) && decide (max a.y0 b.y0 < min a.y1 b.y1)

/-- The box marked for redaction for one region (pdf-redact.py lines
70-100): a region carrying text and not flagged as an image searches the
page (`searchFor` models `page.search_for`) and takes the first hit
overlapping the requested rectangle, silently falling back to the
rectangle itself; image or textless regions use the rectangle directly. -/
def redactRect (searchFor : String → List Rect) (r : RedactRegion) : Rect :=
  let rr := regionRect r
  if r.text ≠ "" ∧ r.isImage = false then
    match (searchFor r.text).find? (fun fr => intersects fr rr) with
    | some fr => fr
    | none => rr
  else rr

/-- The redaction boxes applied to page `p` (pdf-redact.py lines 62-103):
none when `p` is out of range or marked for deletion, otherwise one box
per region of that page. -/
def pageRedactions (searchFor : String → List Rect) (regions : List RedactRegion)
    (deletedPages : List Nat) (total_pages : Nat) (p : Nat) : List Rect :=
  if p < total_pages ∧ p ∉ deletedPages then
    (regions.filter (fun r => r.page = p)).map (redactRect searchFor)
  else []

/-- A concrete text-carrying redaction region. -/
def confidentialRegion : RedactRegion :=
  { page := 0, x := 120, y := 120, width := 50, height := 50,
    text := "CONFIDENTIAL", isImage := false }

/-- One guarded `doc.delete_page(page_num)` (pdf-redact.py lines 106-108):
an index at or beyond the current length is silently skipped. -/
def deletePageStep (doc : List Nat) (i : Nat) : List Nat :=
  if i < doc.length then doc.eraseIdx i else doc

/-- `sorted(set(deleted_pages), reverse=True)`: duplicates removed, then
descending order (Python's stable sort modelled by insertion sort). -/
def sortedDescDedup (deleted : List Nat) : List Nat :=
  List.insertionSort (fun a b => b ≤ a) deleted.dedup

/-- The page-deletion loop: process the requested indices in descending
order, erasing each in-range index from the current document. -/
def deletePages (doc : List Nat) (deleted : List Nat) : List Nat :=
  (sortedDescDedup deleted).foldl deletePageStep doc

end BookForge

open BookForge

/-- C3: the classifier is a total function evaluated in the fixed priority
order of the spec (first match wins), every block maps to exactly one of
the eleven semantic types, and a bold superscript block of tiny font size
classifies as footnote_ref, not heading or subheading. -/
theorem classifier_matches_spec_order :
    (∀ (b : TextBlock) (baseline : ℚ),
        classifyBlockCore b baseline = classifySpec b baseline) ∧
    (∀ (b : TextBlock) (baseline : ℚ),
        classifyBlockCore b baseline ∈ categoryTypes) ∧
    tinyBoldSuper.is_bold = true ∧
    tinyBoldSuper.is_superscript = true ∧
    classifyBlockCore tinyBoldSuper 10 = "footnote_ref" := by
  refine ⟨?_, ?_, rfl, rfl, ?_⟩
  · intro b baseline
    simp only [classifyBlockCore, classifySpec, mul_comm]
  · intro b baseline
    unfold classifyBlockCore
    split_ifs <;> decide
  · norm_num [classifyBlockCore, tinyBoldSuper]

/-- C4: the region of a text block is decided by the spec's ordered
decision table (header via either disjunct, then footer, lower, body);
in particular y_pct = 0.04 with text length 100 and two lines is a header,
while y_pct = 0.04 with text length 200 falls through to body. -/
theorem region_matches_spec_table :
    (∀ (y page_height : ℚ) (text_len line_count : Nat), 0 < page_height →
        computeRegion y page_height text_len line_count =
          regionSpec y page_height text_len line_count) ∧
    computeRegion 32 800 100 2 = "header" ∧
    computeRegion 32 800 200 2 = "body" := by
  refine ⟨?_, ?_, ?_⟩
  · intro y ph tl lc _
    simp only [computeRegion, regionSpec]
    split_ifs <;> tauto
  · norm_num [computeRegion]
  · norm_num [computeRegion]

/-- Witness for C4: the general equality applied at the concrete header
example, with the positive page height discharged there. -/
theorem region_matches_spec_table_witness :
    computeRegion 32 800 100 2 = regionSpec 32 800 100 2 :=
  region_matches_spec_table.1 32 800 100 2 (by norm_num)

/-- C8 counterexample: on a document whose only block is an image block
(region "body", not bold, zero characters, zero font size), the font size
with the highest total character count among qualifying blocks is 0, yet
the classifier does not use 0: Python's `body_size or 10.0` treats the
computed 0.0 as missing and substitutes 10.0. -/
theorem baseline_zero_not_used :
    bodySizeOpt [imgBlock] = some 0 ∧
    baselineSpec [imgBlock] = 0 ∧
    effectiveBodySize [imgBlock] = 10 ∧
    effectiveBodySize [imgBlock] ≠ baselineSpec [imgBlock] := by
  refine ⟨?_, ?_, ?_, ?_⟩ <;>
    norm_num [bodySizeOpt, sizeChars, addChars, maxBySnd, imgBlock, mkImageBlock,
      baselineSpec, effectiveBodySize, pyOr10, List.foldl]

/-- C8 (amended): the baseline the classifier uses is the font size with
the highest total character count among body-region non-bold blocks,
except that a computed baseline of 0 — like a missing one — is replaced by
10.0; the classifier consumes exactly this effective value. -/
theorem baseline_used_by_classifier (blocks : List TextBlock) (b : TextBlock) :
    effectiveBodySize blocks =
      (if baselineSpec blocks = 0 then 10 else baselineSpec blocks) ∧
    classifyBlock b (bodySizeOpt blocks) =
      classifyBlockCore b (effectiveBodySize blocks) := by
  constructor
  · cases h : maxBySnd (sizeChars blocks) with
    | none => norm_num [effectiveBodySize, bodySizeOpt, baselineSpec, pyOr10, h]
    | some p => simp [effectiveBodySize, bodySizeOpt, baselineSpec, pyOr10, h]
  · rfl

/-- Every block the image-extraction loop produces is built by
`mkImageBlock` (for some id and coordinates). -/
theorem mem_extractImageBlocksAux {p : Nat} {bboxes : List Rect}
    {seen : List (Int × Int × Int × Int)} {b : TextBlock}
    (h : b ∈ extractImageBlocksAux p bboxes seen) :
    ∃ idStr x y x2 y2, b = mkImageBlock idStr p x y x2 y2 := by
  induction bboxes generalizing seen with
  | nil => simp [extractImageBlocksAux] at h
  | cons bb rest ih =>
    simp only [extractImageBlocksAux] at h
    split at h
    · exact ih h
    · split at h
      · exact ih h
      · rcases List.mem_cons.mp h with h1 | h2
        · exact ⟨_, _, _, _, _, h1⟩
        · exact ih h2

/-- C10: every image block has region "body", font size 0, zero characters,
zero lines, no emphasis flags, and text "[Image WxH]", regardless of its
position on the page; the region decision table is never applied to image
blocks, so an image near the bottom of a page still gets region "body". -/
theorem image_blocks_always_body :
    (∀ (idStr : String) (p : Nat) (x y x2 y2 : ℚ),
        (mkImageBlock idStr p x y x2 y2).region = "body" ∧
        (mkImageBlock idStr p x y x2 y2).font_size = 0 ∧
        (mkImageBlock idStr p x y x2 y2).char_count = 0 ∧
        (mkImageBlock idStr p x y x2 y2).line_count = 0 ∧
        (mkImageBlock idStr p x y x2 y2).is_bold = false ∧
        (mkImageBlock idStr p x y x2 y2).is_italic = false ∧
        (mkImageBlock idStr p x y x2 y2).is_superscript = false ∧
        (mkImageBlock idStr p x y x2 y2).is_image = true ∧
        (mkImageBlock idStr p x y x2 y2).text =
          "[Image " ++ toString (truncQ (x2 - x)) ++ "x" ++
            toString (truncQ (y2 - y)) ++ "]") ∧
    (∀ (p : Nat) (bboxes : List Rect) (b : TextBlock),
        b ∈ extractImageBlocks p bboxes →
          b.region = "body" ∧ b.is_image = true ∧ b.font_size = 0 ∧
          b.char_count = 0 ∧ b.line_count = 0) ∧
    (extractImageBlocks 0 [⟨50, 750, 150, 790⟩]).map TextBlock.region = ["body"] := by
  refine ⟨?_, ?_, ?_⟩
  · intro idStr p x y x2 y2
    exact ⟨rfl, rfl, rfl, rfl, rfl, rfl, rfl, rfl, rfl⟩
  · intro p bboxes b hb
    obtain ⟨idStr, x, y, x2, y2, rfl⟩ := mem_extractImageBlocksAux hb
    exact ⟨rfl, rfl, rfl, rfl, rfl⟩
  · norm_num [extractImageBlocks, extractImageBlocksAux, mkImageBlock]

/-- Witness for C10: the membership part applied to the concrete
near-bottom image of the last conjunct. -/
theorem image_blocks_always_body_witness :
    (mkImageBlock (imgBlockId 0 50 750) 0 50 750 150 790).region = "body" ∧
    (mkImageBlock (imgBlockId 0 50 750) 0 50 750 150 790).is_image = true ∧
    (mkImageBlock (imgBlockId 0 50 750) 0 50 750 150 790).font_size = 0 ∧
    (mkImageBlock (imgBlockId 0 50 750) 0 50 750 150 790).char_count = 0 ∧
    (mkImageBlock (imgBlockId 0 50 750) 0 50 750 150 790).line_count = 0 :=
  image_blocks_always_body.2.1 0 [⟨50, 750, 150, 790⟩]
    (mkImageBlock (imgBlockId 0 50 750) 0 50 750 150 790)
    (by norm_num [extractImageBlocks, extractImageBlocksAux])

/-- Lookup after a single dict assignment. -/
theorem dictGet_dictSet (d : List (String × Category)) (k k' : String) (v : Category) :
    dictGet (dictSet d k v) k' = if k' = k then some v else dictGet d k' := by
  induction d with
  | nil =>
    rcases eq_or_ne k' k with h | h
    · subst h; simp [dictSet, dictGet]
    · simp [dictSet, dictGet, h, Ne.symm h]
  | cons p rest ih =>
    rcases eq_or_ne p.1 k with hp | hp
    · rcases eq_or_ne k' k with h | h
      · subst h
        rw [dictSet, if_pos hp]
        simp [dictGet]
      · rw [dictSet, if_pos hp, dictGet, if_neg (Ne.symm h), if_neg h, dictGet,
          if_neg (fun hh => h (hp.symm.trans hh).symm)]
    · rw [dictSet, if_neg hp, dictGet, ih]
      rcases eq_or_ne k' k with h | h
      · subst h; simp [hp]
      · simp [h, dictGet]
/-- Lookup after writing a batch of entries: the last write to the key
wins, otherwise the original dict answers. -/
theorem dictGet_applyPairs (ps : List (String × Category)) (d : List (String × Category))
    (k : String) :
    dictGet (applyPairs d ps) k =
      match lastVal ps k with
      | some v => some v
      | none => dictGet d k := by
  induction ps generalizing d with
  | nil => simp [applyPairs, lastVal]
  | cons p rest ih =>
    show dictGet (applyPairs (dictSet d p.1 p.2) rest) k = _
    rw [ih]
    rcases h : lastVal rest k with _ | v
    · simp only [lastVal, h, dictGet_dictSet]
      rcases eq_or_ne k p.1 with hk | hk
      · subst hk; simp
      · simp [hk, Ne.symm hk]
    · simp [lastVal, h]

/-- Membership in the first-occurrence dedup. -/
theorem mem_dedupKeepFirstAux (l : List String) (seen : List String) (x : String) :
    x ∈ dedupKeepFirstAux seen l ↔ x ∈ l ∧ x ∉ seen := by
  induction l generalizing seen with
  | nil => simp [dedupKeepFirstAux]
  | cons t rest ih =>
    by_cases ht : t ∈ seen
    · rw [dedupKeepFirstAux, if_pos ht, ih]
      constructor
      · rintro ⟨hr, hs⟩; exact ⟨List.mem_cons_of_mem t hr, hs⟩
      · rintro ⟨hor, hs⟩
        rcases List.mem_cons.mp hor with rfl | hr
        · exact absurd ht hs
        · exact ⟨hr, hs⟩
    · rw [dedupKeepFirstAux, if_neg ht]
      constructor
      · intro hmem
        rcases List.mem_cons.mp hmem with rfl | hmem2
        · exact ⟨List.mem_cons_self x rest, ht⟩
        · obtain ⟨hr, hs⟩ := (ih (t :: seen)).mp hmem2
          exact ⟨List.mem_cons_of_mem t hr,
            fun hx => hs (List.mem_cons_of_mem t hx)⟩
      · rintro ⟨hor, hs⟩
        rcases List.mem_cons.mp hor with rfl | hr
        · exact List.mem_cons_self x _
        · by_cases hx : x = t
          · subst hx; exact List.mem_cons_self x _
          · exact List.mem_cons_of_mem t ((ih (t :: seen)).mpr
              ⟨hr, fun hmem => (List.mem_cons.mp hmem).elim hx hs⟩)

/-- The first-occurrence dedup has no duplicates. -/
theorem nodup_dedupKeepFirstAux (l : List String) (seen : List String) :
    (dedupKeepFirstAux seen l).Nodup := by
  induction l generalizing seen with
  | nil => simp [dedupKeepFirstAux]
  | cons t rest ih =>
    by_cases ht : t ∈ seen
    · rw [dedupKeepFirstAux, if_pos ht]; exact ih seen
    · rw [dedupKeepFirstAux, if_neg ht]
      refine List.nodup_cons.mpr ⟨?_, ih (t :: seen)⟩
      intro hmem
      exact ((mem_dedupKeepFirstAux rest (t :: seen) t).mp hmem).2
        (List.mem_cons_self t seen)

/-- The classifier only produces the eleven semantic types. -/
theorem classify_mem_types (b : TextBlock) (s : ℚ) :
    classifyBlockCore b s ∈ categoryTypes := by
  unfold classifyBlockCore
  split_ifs <;> decide

/-- The md5 prefixes of the eleven types are pairwise distinct. -/
theorem catId_injOn :
    ∀ t1 ∈ categoryTypes, ∀ t2 ∈ categoryTypes, catId t1 = catId t2 → t1 = t2 := by
  decide

/-- No semantic type has an empty category id. -/
theorem catId_ne_empty : ∀ t ∈ categoryTypes, catId t ≠ "" := by decide

/-- Every semantic type has a fixed palette color. -/
theorem categoryColor_isSome : ∀ t ∈ categoryTypes, (categoryColor t).isSome := by decide

/-- When every key has a semantic color, the pass's entries are a plain
map over the sorted keys (the fallback index never advances). -/
theorem catPairsAux_eq_map (blocks : List TextBlock) (bs : Option ℚ) (ks : List String)
    (h : ∀ t ∈ ks, (categoryColor t).isSome) (fidx : Nat) :
    catPairsAux blocks bs fidx ks =
      ks.map (fun t =>
        (catId t, mkCategory t (groupOf blocks bs t) ((categoryColor t).getD ""))) := by
  induction ks generalizing fidx with
  | nil => simp [catPairsAux]
  | cons t rest ih =>
    have ht := h t (List.mem_cons_self t rest)
    rcases hc : categoryColor t with _ | c
    · rw [hc] at ht; simp at ht
    · simp [catPairsAux, hc, ih (fun u hu => h u (List.mem_cons_of_mem t hu))]

/-- A key assigned by none of the entries looks up to nothing. -/
theorem lastVal_map_none (f : String → Category) (ks : List String) (k : String)
    (h : ∀ t ∈ ks, catId t ≠ k) :
    lastVal (ks.map (fun t => (catId t, f t))) k = none := by
  induction ks with
  | nil => simp [lastVal]
  | cons t rest ih =>
    simp only [List.map_cons, lastVal,
      ih (fun u hu => h u (List.mem_cons_of_mem t hu))]
    simp [h t (List.mem_cons_self t rest)]

/-- With pairwise-distinct category ids, each key looks up to its own
entry. -/
theorem lastVal_map_mem (f : String → Category) (ks : List String) (t : String)
    (hnd : (ks.map catId).Nodup) (ht : t ∈ ks) :
    lastVal (ks.map (fun u => (catId u, f u))) (catId t) = some (f t) := by
  induction ks with
  | nil => simp at ht
  | cons a rest ih =>
    rw [List.map_cons, List.nodup_cons] at hnd
    rcases List.mem_cons.mp ht with rfl | hmem
    · have hn : ∀ u ∈ rest, catId u ≠ catId t := by
        intro u hu heq
        exact hnd.1 (heq ▸ List.mem_map_of_mem catId hu)
      simp only [List.map_cons, lastVal, lastVal_map_none f rest (catId t) hn]
      simp
    · simp [List.map_cons, lastVal, ih hnd.2 hmem]

/-- Every block's classification is among the pass's group keys. -/
theorem mem_sortedKeys {blocks : List TextBlock} {bs : Option ℚ} {b : TextBlock}
    (hb : b ∈ blocks) : classifyBlock b bs ∈ sortedKeys blocks bs := by
  have h1 : classifyBlock b bs ∈ groupKeys blocks bs := by
    unfold groupKeys dedupKeepFirst
    exact (mem_dedupKeepFirstAux _ _ _).mpr ⟨List.mem_map_of_mem _ hb, by simp⟩
  exact ((List.perm_insertionSort _ _).mem_iff).mpr h1

/-- Every group key is one of the eleven semantic types. -/
theorem sortedKeys_subset_types {blocks : List TextBlock} {bs : Option ℚ} {t : String}
    (ht : t ∈ sortedKeys blocks bs) : t ∈ categoryTypes := by
  have h1 : t ∈ groupKeys blocks bs := ((List.perm_insertionSort _ _).mem_iff).mp ht
  obtain ⟨b, _, rfl⟩ := List.mem_map.mp ((mem_dedupKeepFirstAux _ _ _).mp h1).1
  exact classify_mem_types b _

/-- The sorted group keys are distinct. -/
theorem sortedKeys_nodup (blocks : List TextBlock) (bs : Option ℚ) :
    (sortedKeys blocks bs).Nodup :=
  (List.perm_insertionSort _ _).symm.nodup (nodup_dedupKeepFirstAux _ [])

/-- The pass writes pairwise-distinct category ids. -/
theorem sortedKeys_map_catId_nodup (blocks : List TextBlock) (bs : Option ℚ) :
    ((sortedKeys blocks bs).map catId).Nodup :=
  List.Nodup.map_on
    (fun x hx y hy hxy =>
      catId_injOn x (sortedKeys_subset_types hx) y (sortedKeys_subset_types hy) hxy)
    (sortedKeys_nodup blocks bs)

/-- The entries of one categorization pass, in closed form. -/
theorem catPairs_eq_map (blocks : List TextBlock) :
    catPairs blocks =
      (sortedKeys blocks (bodySizeOpt blocks)).map
        (fun t => (catId t, mkCategory t (groupOf blocks (bodySizeOpt blocks) t)
            ((categoryColor t).getD ""))) :=
  catPairsAux_eq_map _ _ _
    (fun t ht => categoryColor_isSome t (sortedKeys_subset_types ht)) 0

/-- An image block is classified "image" under any baseline. -/
theorem classify_imgBlock (bs : Option ℚ) : classifyBlock imgBlock bs = "image" := by
  simp [classifyBlock, classifyBlockCore, imgBlock, mkImageBlock]

/-- The concrete body block's document has baseline 10. -/
theorem bodySizeOpt_bodyTextBlock : bodySizeOpt [bodyTextBlock] = some 10 := by
  norm_num [bodySizeOpt, sizeChars, maxBySnd, addChars, bodyTextBlock, List.foldl]

/-- The concrete body block is classified "body" in its own document. -/
theorem classify_bodyTextBlock :
    classifyBlock bodyTextBlock (bodySizeOpt [bodyTextBlock]) = "body" := by
  rw [bodySizeOpt_bodyTextBlock]
  norm_num [classifyBlock, classifyBlockCore, pyOr10, bodyTextBlock]
  decide

/-- Analyzing a one-block document, in closed form: the sole block gets its
group's id, and the dict receives exactly one write. -/
theorem analyze_one_block (st : AnalyzerState) (b : TextBlock) (t : String)
    (hcl : classifyBlock b (bodySizeOpt [b]) = t) (c : String)
    (hco : categoryColor t = some c) :
    analyze st [b] =
      { blocks := [{ b with category_id := catId t }],
        categories := dictSet st.categories (catId t) (mkCategory t [b] c) } := by
  simp [analyze, generateCategories, assignCat, catPairs, sortedKeys, groupKeys,
    dedupKeepFirst, dedupKeepFirstAux, List.insertionSort, List.orderedInsert,
    catPairsAux, groupOf, applyPairs, dictSet, hcl, hco]

/-- C1 counterexample: two analyze calls on one session, first over a
document with only an image block, then over a document with only a body
text block. The second pass synthesizes only the "body" category, yet the
"image" category of the first pass is still in the map (a fresh session
analyzing the second document alone has no such entry): the map is not
cleared between passes. -/
theorem stale_category_survives :
    (dictGet (analyze (analyze initState [imgBlock]) [bodyTextBlock]).categories
        (catId "image")).isSome = true ∧
    (analyze (analyze initState [imgBlock]) [bodyTextBlock]).blocks.map
        (fun b => b.category_id) = [catId "body"] ∧
    catId "body" ≠ catId "image" ∧
    dictGet (analyze initState [bodyTextBlock]).categories (catId "image") = none := by
  rw [analyze_one_block initState imgBlock "image" (classify_imgBlock _) "#9E9E9E" rfl]
  rw [analyze_one_block _ bodyTextBlock "body" classify_bodyTextBlock "#4CAF50" rfl]
  refine ⟨?_, rfl, by decide, ?_⟩
  · simp [initState, dictSet, dictGet, catId]
  · rw [analyze_one_block initState bodyTextBlock "body" classify_bodyTextBlock "#4CAF50" rfl]
    simp [initState, dictSet, dictGet, catId]

/-- C1 (amended): each analyze call rebuilds the blocks and writes the
categories synthesized from that pass into the map, overwriting entries
with the same id; but the map is never cleared, so a key the new pass does
not produce keeps its value from the session's earlier passes. -/
theorem categories_overwritten_not_cleared (st : AnalyzerState)
    (extracted : List TextBlock) (k : String) :
    dictGet (analyze st extracted).categories k =
      match dictGet (analyze initState extracted).categories k with
      | some v => some v
      | none => dictGet st.categories k := by
  simp only [analyze, generateCategories, initState]
  rw [dictGet_applyPairs, dictGet_applyPairs]
  cases h : lastVal (catPairs extracted) k <;> simp [h, dictGet]

/-- C2 counterexample: after the same two analyze calls, the stale "image"
category still records block_count 1, while zero current blocks
reference it — the aggregate invariant fails for categories surviving from
an earlier pass. -/
theorem stale_aggregates_counterexample :
    dictGet (analyze (analyze initState [imgBlock]) [bodyTextBlock]).categories
        (catId "image") = some (mkCategory "image" [imgBlock] "#9E9E9E") ∧
    (mkCategory "image" [imgBlock] "#9E9E9E").block_count = 1 ∧
    ((analyze (analyze initState [imgBlock]) [bodyTextBlock]).blocks.filter
        (fun b => b.category_id = catId "image")).length = 0 := by
  rw [analyze_one_block initState imgBlock "image" (classify_imgBlock _) "#9E9E9E" rfl]
  rw [analyze_one_block _ bodyTextBlock "body" classify_bodyTextBlock "#4CAF50" rfl]
  refine ⟨?_, rfl, ?_⟩
  · simp [initState, dictSet, dictGet, catId]
  · simp [List.filter, catId]

/-- C2 (amended): after every analyze call, every block's category id is
non-empty and resolves to a category in the map whose block_count counts
and char_count sums exactly the current blocks carrying that id; only a
stale category from an earlier pass — referenced by no current block —
can disagree with those aggregates. -/
theorem fresh_pass_category_aggregates (st : AnalyzerState) (ext : List TextBlock)
    (b : TextBlock) (hb : b ∈ (analyze st ext).blocks) :
    b.category_id ≠ "" ∧
    ∃ c, dictGet (analyze st ext).categories b.category_id = some c ∧
      c.block_count = ((analyze st ext).blocks.filter
          (fun b2 => b2.category_id = b.category_id)).length ∧
      c.char_count = (((analyze st ext).blocks.filter
          (fun b2 => b2.category_id = b.category_id)).map
          (fun b2 => b2.char_count)).sum := by
  have hblocks : (analyze st ext).blocks = ext.map (assignCat (bodySizeOpt ext)) := rfl
  rw [hblocks] at hb
  obtain ⟨b0, hb0, rfl⟩ := List.mem_map.mp hb
  have htypes : classifyBlock b0 (bodySizeOpt ext) ∈ categoryTypes :=
    classify_mem_types b0 _
  have htk : classifyBlock b0 (bodySizeOpt ext) ∈ sortedKeys ext (bodySizeOpt ext) :=
    mem_sortedKeys hb0
  have hid : (assignCat (bodySizeOpt ext) b0).category_id =
      catId (classifyBlock b0 (bodySizeOpt ext)) := rfl
  have hlook : dictGet (analyze st ext).categories
      (catId (classifyBlock b0 (bodySizeOpt ext))) =
      some (mkCategory (classifyBlock b0 (bodySizeOpt ext))
        (groupOf ext (bodySizeOpt ext) (classifyBlock b0 (bodySizeOpt ext)))
        ((categoryColor (classifyBlock b0 (bodySizeOpt ext))).getD "")) := by
    show dictGet (applyPairs st.categories (catPairs ext)) _ = _
    rw [dictGet_applyPairs, catPairs_eq_map]
    rw [lastVal_map_mem _ _ _ (sortedKeys_map_catId_nodup ext (bodySizeOpt ext)) htk]
  have hfilter : ((analyze st ext).blocks.filter
      (fun b2 => b2.category_id = (assignCat (bodySizeOpt ext) b0).category_id)) =
      (groupOf ext (bodySizeOpt ext) (classifyBlock b0 (bodySizeOpt ext))).map
        (assignCat (bodySizeOpt ext)) := by
    rw [hblocks, hid, List.filter_map]
    unfold groupOf
    congr 1
    apply List.filter_congr
    intro a _
    simp only [Function.comp_apply, assignCat, decide_eq_decide]
    constructor
    · intro heq
      exact catId_injOn _ (classify_mem_types a _) _ htypes heq
    · intro heq
      rw [heq]
  refine ⟨?_,
    mkCategory (classifyBlock b0 (bodySizeOpt ext))
      (groupOf ext (bodySizeOpt ext) (classifyBlock b0 (bodySizeOpt ext)))
      ((categoryColor (classifyBlock b0 (bodySizeOpt ext))).getD ""),
    ?_, ?_, ?_⟩
  · exact catId_ne_empty _ htypes
  · exact hlook
  · rw [hfilter, List.length_map]
    rfl
  · rw [hfilter, List.map_map]
    rfl

/-- Witness for C2 (amended): a fresh session analyzing a one-body-block
document; the block's category resolves and both aggregates agree. -/
theorem fresh_pass_category_aggregates_witness :
    (assignCat (bodySizeOpt [bodyTextBlock]) bodyTextBlock).category_id ≠ "" ∧
    ∃ c, dictGet (analyze initState [bodyTextBlock]).categories
        (assignCat (bodySizeOpt [bodyTextBlock]) bodyTextBlock).category_id = some c ∧
      c.block_count = ((analyze initState [bodyTextBlock]).blocks.filter
          (fun b2 => b2.category_id =
            (assignCat (bodySizeOpt [bodyTextBlock]) bodyTextBlock).category_id)).length ∧
      c.char_count = (((analyze initState [bodyTextBlock]).blocks.filter
          (fun b2 => b2.category_id =
            (assignCat (bodySizeOpt [bodyTextBlock]) bodyTextBlock).category_id)).map
          (fun b2 => b2.char_count)).sum :=
  fresh_pass_category_aggregates initState [bodyTextBlock]
    (assignCat (bodySizeOpt [bodyTextBlock]) bodyTextBlock)
    (List.mem_map_of_mem _ (List.mem_singleton.mpr rfl))

/-- The emission loop agrees with the spec-side description once a real
page number has been seen. -/
theorem exportLoop_eq_specRest (l : List TextBlock) (p : Nat) :
    exportLoop l (p : Int) = exportSpecRest p l := by
  induction l generalizing p with
  | nil => rfl
  | cons b rest ih =>
    simp only [exportLoop, exportSpecRest]
    by_cases h : b.page = p
    · subst h
      rw [if_pos rfl, if_pos rfl]
      rw [ih b.page]
      rfl
    · rw [if_neg (fun hc => h (by exact_mod_cast hc)), if_neg h,
        if_pos (by positivity), ih b.page]
      rfl

/-- The emission loop started at −1 agrees with the spec-side description:
no blank line before the first emitted block. -/
theorem exportLoop_eq_specLines (l : List TextBlock) :
    exportLoop l (-1) = exportSpecLines l := by
  cases l with
  | nil => rfl
  | cons b rest =>
    simp only [exportLoop, exportSpecLines]
    rw [if_neg (by omega), if_neg (by norm_num), exportLoop_eq_specRest]
    rfl

/-- C7: export keeps exactly the blocks whose category is enabled, in
stable (page, y, x) ascending order, and joins their texts with newline
separators, inserting one blank line exactly at page changes and none
before the first block; the returned count is the text's length.  Both
components are a pure function of the state and the enabled set, so two
calls with the same arguments return identical text. -/
theorem export_text_matches_spec :
    (∀ (st : AnalyzerState) (enabled : List String),
        (exportedBlocks st enabled).Perm
          (st.blocks.filter (fun b => b.category_id ∈ enabled))) ∧
    (∀ (st : AnalyzerState) (enabled : List String),
        (exportedBlocks st enabled).Sorted blockKeyLE) ∧
    (∀ (st : AnalyzerState) (enabled : List String),
        export_text st enabled =
          (String.intercalate "\n" (exportSpecLines (exportedBlocks st enabled)),
           (String.intercalate "\n" (exportSpecLines (exportedBlocks st enabled))).length)) := by
  refine ⟨?_, ?_, ?_⟩
  · intro st enabled
    exact List.Perm.filter _ (List.perm_insertionSort _ _)
  · intro st enabled
    exact (List.sorted_insertionSort blockKeyLE st.blocks).filter _
  · intro st enabled
    simp only [export_text]
    rw [exportLoop_eq_specLines]

/-- C9: find_similar returns an empty id list with count 0 when no block
has the given id; otherwise the looked-up block is the first block with
that id, and the result lists the ids of all blocks sharing its
category_id, in storage order, with count equal to that list's length. -/
theorem find_similar_spec :
    (∀ (st : AnalyzerState) (block_id : String),
        (¬ ∃ b ∈ st.blocks, b.id = block_id) →
        find_similar st block_id = ([], 0)) ∧
    (∀ (st : AnalyzerState) (block_id : String),
        (find_similar st block_id).2 = (find_similar st block_id).1.length) ∧
    (∀ (st : AnalyzerState) (block_id : String) (target : TextBlock),
        st.blocks.find? (fun b => b.id = block_id) = some target →
        target ∈ st.blocks ∧ target.id = block_id ∧
        find_similar st block_id =
          ((st.blocks.filter (fun b => b.category_id = target.category_id)).map
              (fun b => b.id),
           ((st.blocks.filter (fun b => b.category_id = target.category_id)).map
              (fun b => b.id)).length)) := by
  refine ⟨?_, ?_, ?_⟩
  · intro st block_id h
    unfold find_similar
    rw [List.find?_eq_none.mpr (fun x hx hc => h ⟨x, hx, of_decide_eq_true hc⟩)]
  · intro st block_id
    unfold find_similar
    rcases h : List.find? (fun b => b.id = block_id) st.blocks with _ | target <;> simp [h]
  · intro st block_id target h
    have htid : target.id = block_id := by
      have h2 := List.find?_some h
      simpa using h2
    refine ⟨List.mem_of_find?_eq_some h, htid, ?_⟩
    simp [find_similar, h]

/-- Witness for C9: looking up an id absent from a one-block state returns
the empty result. -/
theorem find_similar_spec_witness :
    find_similar { blocks := [bodyTextBlock], categories := [] } "nope" = ([], 0) :=
  find_similar_spec.1 { blocks := [bodyTextBlock], categories := [] } "nope"
    (by rintro ⟨b, hb, hid⟩; rw [List.mem_singleton.mp hb] at hid; exact absurd hid (by decide))

/-- C5: the requested page deletions run in strictly descending index
order, any index out of range at deletion time is silently skipped, and
deleting pages [3,5,7] from a 10-page document removes originally-indexed
pages 7, 5, then 3, leaving the 7 originally-surviving pages in their
original order. -/
theorem delete_pages_descending :
    (∀ deleted : List Nat, (sortedDescDedup deleted).Sorted (· > ·)) ∧
    (∀ (doc : List Nat) (i : Nat), doc.length ≤ i → deletePageStep doc i = doc) ∧
    sortedDescDedup [3, 5, 7] = [7, 5, 3] ∧
    deletePageStep (List.range 10) 7 = [0, 1, 2, 3, 4, 5, 6, 8, 9] ∧
    deletePageStep [0, 1, 2, 3, 4, 5, 6, 8, 9] 5 = [0, 1, 2, 3, 4, 6, 8, 9] ∧
    deletePageStep [0, 1, 2, 3, 4, 6, 8, 9] 3 = [0, 1, 2, 4, 6, 8, 9] ∧
    deletePages (List.range 10) [3, 5, 7] = [0, 1, 2, 4, 6, 8, 9] ∧
    (deletePages (List.range 10) [3, 5, 7]).length = 7 := by
  refine ⟨?_, ?_, by decide, by decide, by decide, by decide, by decide, by decide⟩
  · intro deleted
    haveI : IsTotal ℕ (fun a b : ℕ => b ≤ a) := ⟨fun a b => le_total b a⟩
    haveI : IsTrans ℕ (fun a b : ℕ => b ≤ a) := ⟨fun _ _ _ h1 h2 => le_trans h2 h1⟩
    have hs := List.sorted_insertionSort (fun a b : ℕ => b ≤ a) deleted.dedup
    have hnd : (sortedDescDedup deleted).Nodup :=
      (List.perm_insertionSort (fun a b : ℕ => b ≤ a) deleted.dedup).symm.nodup
        (List.nodup_dedup deleted)
    exact (hs.and hnd).imp (fun h => lt_of_le_of_ne h.1 h.2.symm)
  · intro doc i h
    unfold deletePageStep
    rw [if_neg (Nat.not_lt.mpr h)]

/-- Witness for C5: deleting index 15 from a 10-page document is a no-op. -/
theorem delete_pages_descending_witness :
    deletePageStep (List.range 10) 15 = List.range 10 :=
  delete_pages_descending.2.1 (List.range 10) 15 (by decide)

/-- C6: a region carrying text and not flagged as an image redacts the
first search hit overlapping its requested rectangle; when no hit
overlaps, the requested rectangle itself is redacted, silently; image
regions and textless regions always redact by coordinates directly; and a
page marked for deletion receives no redactions at all. -/
theorem redaction_region_semantics :
    (∀ (sf : String → List Rect) (r : RedactRegion),
        (r.text = "" ∨ r.isImage = true) → redactRect sf r = regionRect r) ∧
    (∀ (sf : String → List Rect) (r : RedactRegion),
        r.text ≠ "" → r.isImage = false →
        (∀ fr ∈ sf r.text, intersects fr (regionRect r) = false) →
        redactRect sf r = regionRect r) ∧
    (∀ (sf : String → List Rect) (r : RedactRegion) (fr : Rect),
        r.text ≠ "" → r.isImage = false →
        (sf r.text).find? (fun q => intersects q (regionRect r)) = some fr →
        redactRect sf r = fr ∧ fr ∈ sf r.text ∧ intersects fr (regionRect r) = true) ∧
    (∀ (sf : String → List Rect) (regions : List RedactRegion)
        (deletedPages : List Nat) (total : Nat) (p : Nat),
        p ∈ deletedPages → pageRedactions sf regions deletedPages total p = []) := by
  refine ⟨?_, ?_, ?_, ?_⟩
  · intro sf r h
    simp only [redactRect]
    rw [if_neg]
    rintro ⟨h1, h2⟩
    rcases h with h | h
    · exact h1 h
    · rw [h] at h2; exact Bool.noConfusion h2
  · intro sf r h1 h2 h3
    simp only [redactRect]
    rw [if_pos ⟨h1, h2⟩,
      List.find?_eq_none.mpr (fun x hx hc => by simp [h3 x hx] at hc)]
  · intro sf r fr h1 h2 hfind
    refine ⟨?_, List.mem_of_find?_eq_some hfind, by simpa using List.find?_some hfind⟩
    simp only [redactRect]
    rw [if_pos ⟨h1, h2⟩, hfind]
  · intro sf regions deletedPages total p hp
    unfold pageRedactions
    rw [if_neg]
    rintro ⟨_, hnot⟩
    exact hnot hp

/-- Witness for C6: the text region searches the page, skips the
non-overlapping first hit, and redacts the first overlapping hit. -/
theorem redaction_region_semantics_witness :
    redactRect (fun _ => [⟨0, 0, 50, 50⟩, ⟨100, 100, 200, 200⟩]) confidentialRegion =
        ⟨100, 100, 200, 200⟩ ∧
    (⟨100, 100, 200, 200⟩ : Rect) ∈
        (fun (_ : String) => [(⟨0, 0, 50, 50⟩ : Rect), ⟨100, 100, 200, 200⟩])
          confidentialRegion.text ∧
    intersects ⟨100, 100, 200, 200⟩ (regionRect confidentialRegion) = true :=
  redaction_region_semantics.2.2.1
    (fun _ => [⟨0, 0, 50, 50⟩, ⟨100, 100, 200, 200⟩]) confidentialRegion
    ⟨100, 100, 200, 200⟩ (by decide) rfl
    (by norm_num [List.find?, intersects, regionRect, confidentialRegion])
